import Mathlib

/-
Shallow embedding of the notification resolver, its per-user state
mutations, the image-ingestion pipeline and the image-search wrapper of
the wedding-planning application, together with proofs of the spec's
testable properties.

Sources embedded:
  - NotificationsWidget (mergedNotifications, unreadCount, handleMarkAsRead,
    handleDelete) from the home-trousseau client module;
  - ImageUploader (compressAndConvertToBase64, handleFileSelect);
  - searchUnsplashImages server action and ImageSearchDialog.handleSearch;
  - the shared type declarations (Notification, NotificationCampaign,
    UserNotificationState, AppRole).
-/

/-- Millisecond-precision instant, split as a whole-calendar-day count plus
milliseconds within that day, so that date-fns style `addDays` is whole-day
addition on the date rather than a fixed 86400000 ms increment.
(Firestore Timestamp / JS Date; DST shifts are not modelled.) -/
structure Timestamp where
  day : Int
  ms : Int
deriving DecidableEq

/-- JS `Date.getTime()` / Firestore `Timestamp.toMillis()`. -/
def Timestamp.toMillis (t : Timestamp) : Int :=
  t.day * 86400000 + t.ms

/-- date-fns `addDays`: adds whole calendar days, keeping the time of day. -/
def addDays (t : Timestamp) (n : Int) : Timestamp :=
  ⟨t.day + n, t.ms⟩

/-- date-fns `isPast(d)` is `d.getTime() < Date.now()`; the current instant
is passed explicitly. -/
def isPast (now target : Timestamp) : Bool :=
  decide (target.toMillis < now.toMillis)

/-- AppRole from the shared type declarations. -/
inductive AppRole
  | super_admin
  | bride
  | groom
  | collaborator
  | guest
deriving DecidableEq

/-- Target audience of a broadcast notification. -/
inductive NotificationTarget
  | all
  | couples
deriving DecidableEq

/-- Notification: a manually authored broadcast. -/
structure Notification where
  id : String
  title : String
  description : String
  target : NotificationTarget
  buttonLabel : Option String
  buttonUrl : Option String
  createdAt : Timestamp
deriving DecidableEq

/-- Trigger type of an automation campaign. -/
inductive TriggerType
  | relativeToSignup
  | relativeToWeddingDate
deriving DecidableEq

/-- NotificationCampaign: an automation rule. -/
structure NotificationCampaign where
  id : String
  name : String
  title : String
  description : String
  buttonLabel : Option String
  buttonUrl : Option String
  triggerType : TriggerType
  offsetDays : Int
  isActive : Bool
  createdAt : Timestamp
deriving DecidableEq

/-- UserNotificationState: the per-user overlay document. Both fields are
optional in the source (`read?: boolean; deleted?: boolean`); an absent
field is falsy. The document id (the source id) is the map key. -/
structure UserNotificationState where
  read : Option Bool
  deleted : Option Bool
deriving DecidableEq

/-- The `userStates` record: source id to overlay document; `none` models a
document that was never created. -/
abbrev UserStates : Type := String → Option UserNotificationState

/-- Truthiness of `userStates[id]?.read`. -/
def stateRead (s : UserStates) (id : String) : Bool :=
  ((s id).bind UserNotificationState.read).getD false

/-- Truthiness of `userStates[id]?.deleted`. -/
def stateDeleted (s : UserStates) (id : String) : Bool :=
  ((s id).bind UserNotificationState.deleted).getD false

/-- The fields of AppUser read by the resolver (`userProfile`): both are
optional in the source type. -/
structure AppUser where
  role : Option AppRole
  createdAt : Option Timestamp

/-- The field of WeddingData read by the resolver. -/
structure WeddingData where
  weddingDate : Timestamp

/-- MergedNotification: `Omit<Notification, 'target'>` plus `isRead` and the
`isCampaign` flag (absent on manual items, modelled as `false`). -/
structure MergedNotification where
  id : String
  title : String
  description : String
  buttonLabel : Option String
  buttonUrl : Option String
  createdAt : Timestamp
  isRead : Bool
  isCampaign : Bool
deriving DecidableEq

/-- Sort key used by the merge: `createdAt.toMillis()`. -/
def feedKey (m : MergedNotification) : Int :=
  m.createdAt.toMillis

/-- Filter predicate on broadcasts (step 1 of `mergedNotifications`): drop
when `userStates[id]?.deleted`; a `couples` target additionally requires
the bride, groom or super_admin role; any other target passes. -/
def broadcastVisible (userProfile : Option AppUser) (states : UserStates)
    (notif : Notification) : Bool :=
  if stateDeleted states notif.id then false
  else
    match notif.target with
    | NotificationTarget.couples =>
        match userProfile.bind AppUser.role with
        | some AppRole.bride => true
        | some AppRole.groom => true
        | some AppRole.super_admin => true
        | _ => false
    | NotificationTarget.all => true

/-- The mapped shape of a kept broadcast: the spread of the notification
with `isRead` attached (the `isCampaign` flag is absent, hence false). -/
def mkManualItem (states : UserStates) (notif : Notification) :
    MergedNotification :=
  { id := notif.id
    title := notif.title
    description := notif.description
    buttonLabel := notif.buttonLabel
    buttonUrl := notif.buttonUrl
    createdAt := notif.createdAt
    isRead := stateRead states notif.id
    isCampaign := false }

/-- Manual broadcasts kept by the filter, with `isRead` attached. -/
def manualNotifications (userProfile : Option AppUser) (states : UserStates)
    (globalNotifications : List Notification) : List MergedNotification :=
  (globalNotifications.filter (broadcastVisible userProfile states)).map
    (mkManualItem states)

/-- Trigger date of a campaign for this user: signup plus offset for
`relativeToSignup` (the signup timestamp is re-checked in the source), the
wedding date plus offset for `relativeToWeddingDate` when a wedding with a
date is present, `none` otherwise. -/
def campaignTriggerDate (p : AppUser) (weddingData : Option WeddingData)
    (c : NotificationCampaign) : Option Timestamp :=
  match c.triggerType, p.createdAt, weddingData with
  | TriggerType.relativeToSignup, some signup, _ =>
      some (addDays signup c.offsetDays)
  | TriggerType.relativeToWeddingDate, _, some w =>
      some (addDays w.weddingDate c.offsetDays)
  | _, _, _ => none

/-- Materialization of one campaign: a merged item when the trigger date
exists and is in the past, carrying the campaign rule's own `createdAt` as
the sort key. -/
def materializeCampaign (now : Timestamp) (p : AppUser)
    (weddingData : Option WeddingData) (states : UserStates)
    (c : NotificationCampaign) : Option MergedNotification :=
  match campaignTriggerDate p weddingData c with
  | some triggerDate =>
      if isPast now triggerDate then
        some
          { id := c.id
            title := c.title
            description := c.description
            buttonLabel := c.buttonLabel
            buttonUrl := c.buttonUrl
            createdAt := c.createdAt
            isRead := stateRead states c.id
            isCampaign := true }
      else none
  | none => none

/-- Step 2 of `mergedNotifications`: campaigns are processed only when
`userProfile?.createdAt` is present; active, non-deleted campaigns are
materialized in order. -/
def campaignNotifications (now : Timestamp) (userProfile : Option AppUser)
    (weddingData : Option WeddingData)
    (notificationCampaigns : List NotificationCampaign)
    (states : UserStates) : List MergedNotification :=
  match userProfile with
  | none => []
  | some p =>
      match p.createdAt with
      | none => []
      | some _ =>
          (notificationCampaigns.filter
              (fun c => c.isActive && !stateDeleted states c.id)).filterMap
            (materializeCampaign now p weddingData states)

/-- Insertion into a descending-by-key list, keeping earlier elements first
among equal keys, mirroring the stable JS sort with comparator
`b.createdAt.toMillis() - a.createdAt.toMillis()`. -/
def insertDesc (x : MergedNotification) :
    List MergedNotification → List MergedNotification
  | [] => [x]
  | y :: ys =>
      if feedKey x < feedKey y then y :: insertDesc x ys else x :: y :: ys

/-- Sorting descending by the feed key. -/
def sortDesc : List MergedNotification → List MergedNotification
  | [] => []
  | x :: xs => insertDesc x (sortDesc xs)

/-- Step 3 of `mergedNotifications`: concatenation and descending sort by
`createdAt.toMillis()`. -/
def mergedNotifications (now : Timestamp) (userProfile : Option AppUser)
    (weddingData : Option WeddingData)
    (globalNotifications : List Notification)
    (notificationCampaigns : List NotificationCampaign)
    (states : UserStates) : List MergedNotification :=
  sortDesc
    (manualNotifications userProfile states globalNotifications ++
      campaignNotifications now userProfile weddingData
        notificationCampaigns states)

/-- Count of feed items with `isRead` false. -/
def unreadCount (feed : List MergedNotification) : Nat :=
  (feed.filter (fun n => !n.isRead)).length

/-- Firestore `setDoc(ref, constraint, merge)` writing `read: true`: an
existing document keeps its other fields; a missing one is created with
only the written field. -/
def mergeSetRead (s : UserStates) (id : String) : UserStates :=
  fun j =>
    if j = id then
      some
        (match s id with
         | some st => { st with read := some true }
         | none => { read := some true, deleted := none })
    else s j

/-- Merge write of `deleted: true`. -/
def mergeSetDeleted (s : UserStates) (id : String) : UserStates :=
  fun j =>
    if j = id then
      some
        (match s id with
         | some st => { st with deleted := some true }
         | none => { read := none, deleted := some true })
    else s j

/-- The `handleMarkAsRead` state transition: no-op without a user or when
`userStates[id]?.read` is already truthy, otherwise a merge upsert of
`read: true`. -/
def handleMarkAsRead (user : Bool) (s : UserStates) (id : String) :
    UserStates :=
  if !user || stateRead s id then s else mergeSetRead s id

/-- The `handleDelete` state transition: no-op without a user, otherwise a
merge upsert of `deleted: true`. -/
def handleDelete (user : Bool) (s : UserStates) (id : String) : UserStates :=
  if !user then s else mergeSetDeleted s id

/-- A client-side operation on the per-user overlay (performed with a
logged-in user). -/
inductive ClientOp
  | markRead (id : String)
  | delete (id : String)

/-- Application of one client operation. -/
def applyClientOp (s : UserStates) : ClientOp → UserStates
  | ClientOp.markRead id => handleMarkAsRead true s id
  | ClientOp.delete id => handleDelete true s id

/-- Application of a sequence of client operations, oldest first. -/
def applyClientOps (ops : List ClientOp) (s : UserStates) : UserStates :=
  ops.foldl applyClientOp s

/-- Result of the external Firestore write backing a mutation. -/
inductive WriteResult
  | ok
  | failed
deriving DecidableEq

/-- Observable outcome of a mutation handler: whether the write took
effect, whether a user-visible error (toast) was produced, whether the
error was logged to the developer console, and whether the exception was
rethrown to the caller. -/
structure MutationOutcome where
  stateUpdated : Bool
  toastShown : Bool
  consoleLogged : Bool
  rethrown : Bool
deriving DecidableEq

/-- Control flow of `handleMarkAsRead`: early return without a user or when
already read; otherwise `await setDoc` inside try/catch whose catch block
only calls `console.error`. -/
def handleMarkAsReadOutcome (user : Bool) (alreadyRead : Bool)
    (w : WriteResult) : MutationOutcome :=
  if !user || alreadyRead then
    { stateUpdated := false, toastShown := false, consoleLogged := false,
      rethrown := false }
  else
    match w with
    | WriteResult.ok =>
        { stateUpdated := true, toastShown := false, consoleLogged := false,
          rethrown := false }
    | WriteResult.failed =>
        { stateUpdated := false, toastShown := false, consoleLogged := true,
          rethrown := false }

/-- Control flow of `handleDelete`: early return without a user; otherwise
`await setDoc` inside try/catch whose catch block only calls
`console.error`. -/
def handleDeleteOutcome (user : Bool) (w : WriteResult) : MutationOutcome :=
  if !user then
    { stateUpdated := false, toastShown := false, consoleLogged := false,
      rethrown := false }
  else
    match w with
    | WriteResult.ok =>
        { stateUpdated := true, toastShown := false, consoleLogged := false,
          rethrown := false }
    | WriteResult.failed =>
        { stateUpdated := false, toastShown := false, consoleLogged := true,
          rethrown := false }

/-- Image dimensions in CSS pixels; the source arithmetic is done on JS
numbers and is modelled over the rationals. -/
structure Dims where
  width : ℚ
  height : ℚ
deriving DecidableEq

/-- Bound constant of `compressAndConvertToBase64`. -/
def MAX_WIDTH : ℚ := 1920

/-- Bound constant of `compressAndConvertToBase64`. -/
def MAX_HEIGHT : ℚ := 1080

/-- The dimension computation of `compressAndConvertToBase64`: when the
image is strictly landscape, only an over-wide image is scaled down to
width 1920; otherwise only an over-tall image is scaled down to height
1080. -/
def resizeDims (d : Dims) : Dims :=
  if d.width > d.height then
    if d.width > MAX_WIDTH then
      { width := MAX_WIDTH, height := d.height * (MAX_WIDTH / d.width) }
    else d
  else
    if d.height > MAX_HEIGHT then
      { width := d.width * (MAX_HEIGHT / d.height), height := MAX_HEIGHT }
    else d

/-- The `handleFileSelect` guard: a file over 5 MiB is rejected before
`compressAndConvertToBase64` runs; otherwise the resize is performed. -/
def handleFileSelect (fileSize : Nat) (d : Dims) : Option Dims :=
  if fileSize > 5 * 1024 * 1024 then none else some (resizeDims d)

/-- A candidate image returned by the external search collaborator. -/
structure UnsplashImage where
  id : String
  regularUrl : String
deriving DecidableEq

/-- Result shape of the `searchUnsplashImages` server action. -/
structure SearchResult where
  success : Bool
  images : List UnsplashImage
  error : Option String
deriving DecidableEq

/-- The external search API, modelled as a pure map from query and page
number to that page of candidate images. -/
abbrev UnsplashApi : Type := String → Nat → List UnsplashImage

/-- An HTTP GET of the search endpoint: when the URL carries no page
parameter (`page = none`), the collaborator serves its default, page 1. -/
def fetchSearchPhotos (api : UnsplashApi) (query : String)
    (page : Option Nat) : List UnsplashImage :=
  api query (page.getD 1)

/-- The `searchUnsplashImages` server action. Its signature takes only the
query; the endpoint it builds
(`search/photos?query=...&per_page=20&lang=pt`) carries no page parameter,
so the request is served with the collaborator's default page. -/
def searchUnsplashImages (api : UnsplashApi) (accessKey : Option String)
    (query : String) : SearchResult :=
  if query = "" then
    { success := false, images := [], error := some "empty query" }
  else
    match accessKey with
    | none => { success := false, images := [], error := some "missing key" }
    | some _ =>
        { success := true, images := fetchSearchPhotos api query none,
          error := none }

/-- Local state of `ImageSearchDialog`. -/
structure ImageSearchState where
  searchResults : List UnsplashImage
  currentPage : Nat
deriving DecidableEq

/-- The `handleSearch` state transition: a new search clears the results
and resets the page; a load-more request computes `currentPage + 1` and
passes it to the server action, which accepts no page argument; on success
the returned images replace (new search) or are appended to (load more)
the results. -/
def handleSearch (api : UnsplashApi) (accessKey : Option String)
    (query : String) (newSearch : Bool) (st : ImageSearchState) :
    ImageSearchState :=
  if query = "" then st
  else
    let pageToFetch := if newSearch then 1 else st.currentPage + 1
    let cleared : ImageSearchState :=
      if newSearch then { searchResults := [], currentPage := 1 } else st
    let result := searchUnsplashImages api accessKey query
    if result.success then
      { searchResults :=
          if newSearch then result.images
          else cleared.searchResults ++ result.images
        currentPage := if newSearch then cleared.currentPage else pageToFetch }
    else cleared

/-- Descending (non-strict) sortedness of the feed by its sort key. -/
def sortedDescFeed (l : List MergedNotification) : Prop :=
  l.Pairwise (fun a b => feedKey b ≤ feedKey a)

/-- Strictly descending sortedness of the feed by its sort key. -/
def strictlyDescFeed (l : List MergedNotification) : Prop :=
  l.Pairwise (fun a b => feedKey b < feedKey a)

/-- An empty per-user overlay: no state document exists. -/
def noStates : UserStates := fun _ => none

theorem insertDesc_perm (x : MergedNotification)
    (l : List MergedNotification) :
    List.Perm (insertDesc x l) (x :: l) := by
  induction l with
  | nil => simp [insertDesc]
  | cons y ys ih =>
      by_cases h : feedKey x < feedKey y
      · simp only [insertDesc, if_pos h]
        exact (ih.cons y).trans (List.Perm.swap x y ys)
      · simp [insertDesc, if_neg h]

theorem sortDesc_perm (l : List MergedNotification) :
    List.Perm (sortDesc l) l := by
  induction l with
  | nil => simp [sortDesc]
  | cons x xs ih =>
      exact (insertDesc_perm x (sortDesc xs)).trans (ih.cons x)

theorem insertDesc_sorted (x : MergedNotification)
    (l : List MergedNotification) (h : sortedDescFeed l) :
    sortedDescFeed (insertDesc x l) := by
  induction l with
  | nil => simp [insertDesc, sortedDescFeed]
  | cons y ys ih =>
      rw [sortedDescFeed, List.pairwise_cons] at h
      obtain ⟨hy, hys⟩ := h
      by_cases hlt : feedKey x < feedKey y
      · rw [insertDesc, if_pos hlt, sortedDescFeed, List.pairwise_cons]
        refine ⟨fun z hz => ?_, ih hys⟩
        rcases List.mem_cons.mp ((insertDesc_perm x ys).mem_iff.mp hz) with
          rfl | h1
        · exact le_of_lt hlt
        · exact hy z h1
      · rw [insertDesc, if_neg hlt, sortedDescFeed, List.pairwise_cons]
        refine ⟨fun z hz => ?_, List.pairwise_cons.mpr ⟨hy, hys⟩⟩
        rcases List.mem_cons.mp hz with rfl | h1
        · exact le_of_not_lt hlt
        · exact le_trans (hy z h1) (le_of_not_lt hlt)

theorem sortDesc_sorted (l : List MergedNotification) :
    sortedDescFeed (sortDesc l) := by
  induction l with
  | nil => simp [sortDesc, sortedDescFeed]
  | cons x xs ih => exact insertDesc_sorted x (sortDesc xs) ih

theorem mem_mergedNotifications_iff (now : Timestamp)
    (up : Option AppUser) (wd : Option WeddingData)
    (gs : List Notification) (cs : List NotificationCampaign)
    (states : UserStates) (m : MergedNotification) :
    m ∈ mergedNotifications now up wd gs cs states ↔
      m ∈ manualNotifications up states gs ∨
      m ∈ campaignNotifications now up wd cs states := by
  rw [mergedNotifications, (sortDesc_perm _).mem_iff, List.mem_append]

theorem manualNotifications_spec {up : Option AppUser} {states : UserStates}
    {gs : List Notification} {m : MergedNotification}
    (hm : m ∈ manualNotifications up states gs) :
    ∃ n ∈ gs, broadcastVisible up states n = true ∧ m = mkManualItem states n := by
  rw [manualNotifications] at hm
  obtain ⟨n, hn, hmk⟩ := List.mem_map.mp hm
  obtain ⟨hmem, hvis⟩ := List.mem_filter.mp hn
  exact ⟨n, hmem, hvis, hmk.symm⟩

theorem manualNotifications_mem {up : Option AppUser} {states : UserStates}
    {gs : List Notification} {n : Notification} (hn : n ∈ gs)
    (hvis : broadcastVisible up states n = true) :
    mkManualItem states n ∈ manualNotifications up states gs := by
  rw [manualNotifications]
  exact List.mem_map_of_mem _ (List.mem_filter.mpr ⟨hn, hvis⟩)

theorem campaignNotifications_spec {now : Timestamp} {up : Option AppUser}
    {wd : Option WeddingData} {cs : List NotificationCampaign}
    {states : UserStates} {m : MergedNotification}
    (hm : m ∈ campaignNotifications now up wd cs states) :
    ∃ p : AppUser, up = some p ∧ p.createdAt.isSome = true ∧
      ∃ c ∈ cs, c.isActive = true ∧ stateDeleted states c.id = false ∧
        ∃ td : Timestamp, campaignTriggerDate p wd c = some td ∧
          isPast now td = true ∧
          m = { id := c.id, title := c.title, description := c.description,
                buttonLabel := c.buttonLabel, buttonUrl := c.buttonUrl,
                createdAt := c.createdAt, isRead := stateRead states c.id,
                isCampaign := true } := by
  match up with
  | none => simp [campaignNotifications] at hm
  | some p =>
    refine ⟨p, rfl, ?_⟩
    match hp : p.createdAt with
    | none => rw [campaignNotifications, hp] at hm; simp at hm
    | some signup =>
      refine ⟨rfl, ?_⟩
      rw [campaignNotifications, hp] at hm
      obtain ⟨c, hcmem, hmat⟩ := List.mem_filterMap.mp hm
      obtain ⟨hcs, hpred⟩ := List.mem_filter.mp hcmem
      have hpred' : c.isActive = true ∧ stateDeleted states c.id = false := by
        simpa using hpred
      refine ⟨c, hcs, hpred'.1, hpred'.2, ?_⟩
      rw [materializeCampaign] at hmat
      split at hmat
      next td heq =>
        split at hmat
        next hpast => exact ⟨td, heq, hpast, (Option.some_inj.mp hmat).symm⟩
        next => simp at hmat
      next => simp at hmat

theorem campaignNotifications_mem {now : Timestamp} {p : AppUser}
    {wd : Option WeddingData} {cs : List NotificationCampaign}
    {states : UserStates} {c : NotificationCampaign} {td : Timestamp}
    (hpc : p.createdAt.isSome = true) (hc : c ∈ cs) (hact : c.isActive = true)
    (hdel : stateDeleted states c.id = false)
    (htd : campaignTriggerDate p wd c = some td)
    (hpast : isPast now td = true) :
    ({ id := c.id, title := c.title, description := c.description,
       buttonLabel := c.buttonLabel, buttonUrl := c.buttonUrl,
       createdAt := c.createdAt, isRead := stateRead states c.id,
       isCampaign := true } : MergedNotification) ∈
      campaignNotifications now (some p) wd cs states := by
  match hp : p.createdAt with
  | none => rw [hp] at hpc; simp at hpc
  | some signup =>
    rw [campaignNotifications, hp]
    refine List.mem_filterMap.mpr ⟨c, List.mem_filter.mpr ⟨hc, ?_⟩, ?_⟩
    · rw [hact, hdel]; rfl
    · rw [materializeCampaign, htd]; simp [hpast]

theorem deleted_not_in_feed {now : Timestamp} {up : Option AppUser}
    {wd : Option WeddingData} {gs : List Notification}
    {cs : List NotificationCampaign} {states : UserStates} {id : String}
    (h : stateDeleted states id = true) :
    id ∉ (mergedNotifications now up wd gs cs states).map
      MergedNotification.id := by
  intro hmem
  obtain ⟨m, hmfeed, hmid⟩ := List.mem_map.mp hmem
  rcases (mem_mergedNotifications_iff now up wd gs cs states m).mp hmfeed with
    hman | hcamp
  · obtain ⟨n, hn, hvis, rfl⟩ := manualNotifications_spec hman
    simp only [mkManualItem] at hmid
    rw [broadcastVisible, hmid, h] at hvis
    simp at hvis
  · obtain ⟨p, hup, hpc, c, hc, hact, hdelc, td, htd, hpast, rfl⟩ :=
      campaignNotifications_spec hcamp
    simp only at hmid
    rw [hmid, h] at hdelc
    simp at hdelc

/-- Sample broadcast with id n1, targeted at everyone. -/
def sampleAll1 : Notification :=
  ⟨"n1", "t1", "d1", NotificationTarget.all, none, none, ⟨0, 0⟩⟩

/-- Sample broadcast with id n2 and the same createdAt as `sampleAll1`. -/
def sampleAll2 : Notification :=
  ⟨"n2", "t2", "d2", NotificationTarget.all, none, none, ⟨0, 0⟩⟩

/-- Sample broadcast targeted at couples. -/
def sampleCouples : Notification :=
  ⟨"n3", "t3", "d3", NotificationTarget.couples, none, none, ⟨1, 0⟩⟩

/-- Sample active campaign, five days after signup. -/
def sampleCampaignSignup : NotificationCampaign :=
  ⟨"c1", "nm1", "ct1", "cd1", none, none, TriggerType.relativeToSignup, 5,
    true, ⟨2, 0⟩⟩

/-- Sample active campaign, fifteen days before the wedding. -/
def sampleCampaignWedding : NotificationCampaign :=
  ⟨"c2", "nm2", "ct2", "cd2", none, none, TriggerType.relativeToWeddingDate,
    -15, true, ⟨3, 0⟩⟩

/-- A user overlay holding exactly one state document with deleted true. -/
def deletedState (id : String) : UserStates :=
  fun j => if j = id then some ⟨none, some true⟩ else none

/-- C1: for every set of broadcast notifications, campaign rules and user
states, a source id whose user state has deleted equal to true never
appears in the resolved merged feed, regardless of the broadcast's target
or the campaign's trigger type, activity or trigger date. -/
theorem c1_deleted_id_never_in_feed (now : Timestamp) (up : Option AppUser)
    (wd : Option WeddingData) (gs : List Notification)
    (cs : List NotificationCampaign) (states : UserStates) (id : String)
    (h : stateDeleted states id = true) :
    id ∉ (mergedNotifications now up wd gs cs states).map
      MergedNotification.id :=
  deleted_not_in_feed h

/-- Witness for C1: a concrete deleted broadcast id stays out of a feed
that also carries a matching campaign configuration. -/
theorem c1_witness :
    stateDeleted (deletedState "n1") "n1" = true ∧
    "n1" ∉ (mergedNotifications ⟨10, 0⟩
        (some ⟨some AppRole.bride, some ⟨0, 0⟩⟩) none [sampleAll1]
        [sampleCampaignSignup] (deletedState "n1")).map
      MergedNotification.id :=
  ⟨by decide,
    c1_deleted_id_never_in_feed ⟨10, 0⟩
      (some ⟨some AppRole.bride, some ⟨0, 0⟩⟩) none [sampleAll1]
      [sampleCampaignSignup] (deletedState "n1") "n1" (by decide)⟩

theorem stateRead_handleMarkAsRead_self (s : UserStates) (id : String) :
    stateRead (handleMarkAsRead true s id) id = true := by
  by_cases hr : stateRead s id = true
  · simp [handleMarkAsRead, hr]
  · simp only [handleMarkAsRead, Bool.not_true, Bool.false_or,
      Bool.not_eq_true] at hr ⊢
    rw [hr, if_neg (by simp)]
    cases hcur : s id <;>
      simp [mergeSetRead, stateRead, hcur]

theorem handleMarkAsRead_noop (s : UserStates) (id : String)
    (h : stateRead s id = true) : handleMarkAsRead true s id = s := by
  simp [handleMarkAsRead, h]

theorem handleMarkAsRead_idem (s : UserStates) (id : String) :
    handleMarkAsRead true (handleMarkAsRead true s id) id =
      handleMarkAsRead true s id :=
  handleMarkAsRead_noop _ _ (stateRead_handleMarkAsRead_self s id)

theorem stateDeleted_handleMarkAsRead (u : Bool) (s : UserStates)
    (i id : String) :
    stateDeleted (handleMarkAsRead u s i) id = stateDeleted s id := by
  rw [handleMarkAsRead]
  by_cases hgate : (!u || stateRead s i) = true
  · rw [if_pos hgate]
  · rw [if_neg hgate]
    by_cases hj : id = i
    · subst hj
      cases hcur : s id <;>
        simp [mergeSetRead, stateDeleted, hcur]
    · simp [mergeSetRead, stateDeleted, hj]

theorem stateDeleted_handleDelete_self (s : UserStates) (id : String) :
    stateDeleted (handleDelete true s id) id = true := by
  cases hcur : s id <;>
    simp [handleDelete, mergeSetDeleted, stateDeleted, hcur]

theorem handleDelete_idem (s : UserStates) (id : String) :
    handleDelete true (handleDelete true s id) id =
      handleDelete true s id := by
  simp only [handleDelete, Bool.not_true, Bool.false_eq_true, if_false]
  funext j
  by_cases hj : j = id
  · subst hj
    cases hcur : s j <;> simp [mergeSetDeleted, hcur]
  · simp [mergeSetDeleted, hj]

theorem stateRead_handleDelete (u : Bool) (s : UserStates) (i id : String) :
    stateRead (handleDelete u s i) id = stateRead s id := by
  rw [handleDelete]
  by_cases hu : (!u) = true
  · rw [if_pos hu]
  · rw [if_neg hu]
    by_cases hj : id = i
    · subst hj
      cases hcur : s id <;>
        simp [mergeSetDeleted, stateRead, hcur]
    · simp [mergeSetDeleted, stateRead, hj]

theorem stateDeleted_handleDelete (u : Bool) (s : UserStates) (i id : String)
    (h : stateDeleted s id = true) :
    stateDeleted (handleDelete u s i) id = true := by
  rw [handleDelete]
  by_cases hu : (!u) = true
  · rw [if_pos hu]; exact h
  · rw [if_neg hu]
    by_cases hj : id = i
    · subst hj
      cases hcur : s id <;>
        simp [mergeSetDeleted, stateDeleted, hcur]
    · simpa [mergeSetDeleted, stateDeleted, hj] using h

/-- C5: markRead sets only the read flag (true afterwards, a no-op when
already true, idempotent, deleted untouched at every id) and delete sets
only the deleted flag (true afterwards, idempotent, read untouched at
every id). -/
theorem c5_markRead_delete_merge_frame (s : UserStates) (id j : String) :
    stateRead (handleMarkAsRead true s id) id = true ∧
    (stateRead s id = true → handleMarkAsRead true s id = s) ∧
    handleMarkAsRead true (handleMarkAsRead true s id) id =
      handleMarkAsRead true s id ∧
    stateDeleted (handleMarkAsRead true s id) j = stateDeleted s j ∧
    stateDeleted (handleDelete true s id) id = true ∧
    handleDelete true (handleDelete true s id) id = handleDelete true s id ∧
    stateRead (handleDelete true s id) j = stateRead s j :=
  ⟨stateRead_handleMarkAsRead_self s id, handleMarkAsRead_noop s id,
    handleMarkAsRead_idem s id, stateDeleted_handleMarkAsRead true s id j,
    stateDeleted_handleDelete_self s id, handleDelete_idem s id,
    stateRead_handleDelete true s id j⟩

theorem stateDeleted_applyClientOps (ops : List ClientOp) (s : UserStates)
    (id : String) (h : stateDeleted s id = true) :
    stateDeleted (applyClientOps ops s) id = true := by
  induction ops generalizing s with
  | nil => exact h
  | cons op rest ih =>
      rw [applyClientOps, List.foldl_cons]
      refine ih _ ?_
      cases op with
      | markRead i =>
          rw [applyClientOp, stateDeleted_handleMarkAsRead]; exact h
      | delete i => exact stateDeleted_handleDelete true s i id h

/-- C4: delete is terminal; after a delete, no sequence of client markRead
or delete operations un-sets the deleted flag or restores the id to the
feed. -/
theorem c4_delete_terminal (s : UserStates) (id : String)
    (ops : List ClientOp) (now : Timestamp) (up : Option AppUser)
    (wd : Option WeddingData) (gs : List Notification)
    (cs : List NotificationCampaign) :
    stateDeleted (applyClientOps ops (handleDelete true s id)) id = true ∧
    id ∉ (mergedNotifications now up wd gs cs
        (applyClientOps ops (handleDelete true s id))).map
      MergedNotification.id := by
  have hd := stateDeleted_applyClientOps ops (handleDelete true s id) id
    (stateDeleted_handleDelete_self s id)
  exact ⟨hd, deleted_not_in_feed hd⟩

/-- The merged item produced for `sampleCampaignSignup` under an empty
overlay. -/
def sampleCampaignItem : MergedNotification :=
  ⟨"c1", "ct1", "cd1", none, none, ⟨2, 0⟩, false, true⟩

/-- C2 counterexample: two kept broadcasts sharing a createdAt make the
feed non-strictly ordered, so the feed is not strictly descending. -/
theorem c2_counterexample :
    ¬ strictlyDescFeed (mergedNotifications ⟨0, 0⟩ none none
      [sampleAll1, sampleAll2] [] noStates) := by
  simp only [strictlyDescFeed]
  decide

/-- C2 amended: the merged feed is sorted descending (non-strictly; equal
sort keys may sit adjacent) by its assigned sort key, where a broadcast's
key is its own createdAt and a materialized campaign's key is the campaign
rule's createdAt, never the computed trigger date. -/
theorem c2_feed_sorted_desc (now : Timestamp) (up : Option AppUser)
    (wd : Option WeddingData) (gs : List Notification)
    (cs : List NotificationCampaign) (states : UserStates) :
    sortedDescFeed (mergedNotifications now up wd gs cs states) ∧
    ∀ m ∈ mergedNotifications now up wd gs cs states,
      (m.isCampaign = true →
        ∃ c ∈ cs, m.id = c.id ∧ m.createdAt = c.createdAt) ∧
      (m.isCampaign = false →
        ∃ n ∈ gs, m.id = n.id ∧ m.createdAt = n.createdAt) := by
  refine ⟨by rw [mergedNotifications]; exact sortDesc_sorted _,
    fun m hm => ?_⟩
  rcases (mem_mergedNotifications_iff now up wd gs cs states m).mp hm with
    hman | hcamp
  · obtain ⟨n, hn, hvis, rfl⟩ := manualNotifications_spec hman
    refine ⟨fun hcamp' => ?_, fun _ => ⟨n, hn, rfl, rfl⟩⟩
    simp [mkManualItem] at hcamp'
  · obtain ⟨p, hup, hpc, c, hc, hact, hdel, td, htd, hpast, rfl⟩ :=
      campaignNotifications_spec hcamp
    exact ⟨fun _ => ⟨c, hc, rfl, rfl⟩, fun hfalse => by simp at hfalse⟩

/-- Witness for C2: in a concrete feed holding one broadcast and one
triggered campaign, the feed is sorted descending and the campaign item's
key is the rule's createdAt. -/
theorem c2_witness :
    sortedDescFeed (mergedNotifications ⟨10, 0⟩
      (some ⟨some AppRole.bride, some ⟨0, 0⟩⟩) none [sampleAll1]
      [sampleCampaignSignup] noStates) ∧
    ∃ c ∈ [sampleCampaignSignup],
      sampleCampaignItem.id = c.id ∧
      sampleCampaignItem.createdAt = c.createdAt := by
  have h := c2_feed_sorted_desc ⟨10, 0⟩
    (some ⟨some AppRole.bride, some ⟨0, 0⟩⟩) none [sampleAll1]
    [sampleCampaignSignup] noStates
  exact ⟨h.1, (h.2 sampleCampaignItem (by decide)).1 (by decide)⟩

/-- C10: when the profile carries no signup timestamp, no campaign rule
materializes at all, even an active relativeToWeddingDate campaign with a
wedding date present, so the feed holds only broadcast items. -/
theorem c10_no_signup_no_campaigns (now : Timestamp) (up : Option AppUser)
    (wd : Option WeddingData) (gs : List Notification)
    (cs : List NotificationCampaign) (states : UserStates)
    (h : up.bind AppUser.createdAt = none) :
    campaignNotifications now up wd cs states = [] ∧
    ∀ m ∈ mergedNotifications now up wd gs cs states,
      m.isCampaign = false := by
  have hcn : campaignNotifications now up wd cs states = [] := by
    match up with
    | none => rw [campaignNotifications]
    | some p =>
        have hp : p.createdAt = none := by simpa using h
        rw [campaignNotifications, hp]
  refine ⟨hcn, fun m hm => ?_⟩
  rcases (mem_mergedNotifications_iff now up wd gs cs states m).mp hm with
    hman | hcamp
  · obtain ⟨n, hn, hvis, rfl⟩ := manualNotifications_spec hman
    rfl
  · rw [hcn] at hcamp
    simp at hcamp

/-- Witness for C10: with a profile lacking createdAt, a wedding date on
file and an active relativeToWeddingDate campaign still materialize
nothing. -/
theorem c10_witness :
    (some (⟨some AppRole.bride, none⟩ : AppUser)).bind AppUser.createdAt =
      none ∧
    campaignNotifications ⟨1000, 0⟩ (some ⟨some AppRole.bride, none⟩)
      (some ⟨⟨100, 0⟩⟩) [sampleCampaignWedding, sampleCampaignSignup]
      noStates = [] :=
  ⟨by decide,
    (c10_no_signup_no_campaigns ⟨1000, 0⟩ (some ⟨some AppRole.bride, none⟩)
      (some ⟨⟨100, 0⟩⟩) [] [sampleCampaignWedding, sampleCampaignSignup]
      noStates (by decide)).1⟩

/-- C3 counterexample: at the exact trigger instant (signup day 0, offset
5, evaluation at day 5 with the same time of day) the current time is at
or after signup plus offset, yet the campaign does not materialize. -/
theorem c3_counterexample :
    (addDays ⟨0, 0⟩ 5).toMillis ≤ (⟨5, 0⟩ : Timestamp).toMillis ∧
    mergedNotifications ⟨5, 0⟩ (some ⟨some AppRole.bride, some ⟨0, 0⟩⟩) none
      [] [sampleCampaignSignup] noStates = [] := by
  decide

/-- C3 amended: an active, non-deleted relativeToSignup campaign whose
user has a signup timestamp materializes into the feed iff its trigger
date, signup plus offsetDays calendar days (offsetDays may be negative),
is strictly in the past at evaluation time; at the exact trigger instant
it does not yet materialize. -/
theorem c3_signup_campaign_materializes_iff (now : Timestamp) (p : AppUser)
    (signup : Timestamp) (wd : Option WeddingData) (gs : List Notification)
    (cs : List NotificationCampaign) (states : UserStates)
    (c : NotificationCampaign) (hp : p.createdAt = some signup) (hc : c ∈ cs)
    (hnodup : (cs.map NotificationCampaign.id).Nodup)
    (hact : c.isActive = true) (hdel : stateDeleted states c.id = false)
    (htt : c.triggerType = TriggerType.relativeToSignup)
    (hgs : c.id ∉ gs.map Notification.id) :
    c.id ∈ (mergedNotifications now (some p) wd gs cs states).map
        MergedNotification.id ↔
      (addDays signup c.offsetDays).toMillis < now.toMillis := by
  constructor
  · intro hmem
    obtain ⟨m, hmfeed, hmid⟩ := List.mem_map.mp hmem
    rcases (mem_mergedNotifications_iff now (some p) wd gs cs states m).mp
        hmfeed with hman | hcamp
    · obtain ⟨n, hn, hvis, rfl⟩ := manualNotifications_spec hman
      exact absurd (List.mem_map.mpr ⟨n, hn, hmid⟩) hgs
    · obtain ⟨p', hup, hpc, c', hc', hact', hdel', td, htd, hpast, rfl⟩ :=
        campaignNotifications_spec hcamp
      obtain rfl := Option.some_inj.mp hup
      have hcc : c' = c := List.inj_on_of_nodup_map hnodup hc' hc hmid
      subst hcc
      simp only [campaignTriggerDate, htt, hp] at htd
      obtain rfl := Option.some_inj.mp htd
      simpa [isPast] using hpast
  · intro hlt
    have hpast : isPast now (addDays signup c.offsetDays) = true := by
      simp [isPast]; exact hlt
    have htd : campaignTriggerDate p wd c =
        some (addDays signup c.offsetDays) := by
      simp [campaignTriggerDate, htt, hp]
    have hmem := campaignNotifications_mem (by rw [hp]; rfl) hc hact hdel
      htd hpast
    exact List.mem_map.mpr
      ⟨_, (mem_mergedNotifications_iff now (some p) wd gs cs states _).mpr
        (Or.inr hmem), rfl⟩

/-- Witness for C3: the sample signup campaign (offset 5) is in the feed
ten days after a day-zero signup, by the amended criterion. -/
theorem c3_witness :
    "c1" ∈ (mergedNotifications ⟨10, 0⟩
        (some ⟨some AppRole.bride, some ⟨0, 0⟩⟩) none [sampleAll1]
        [sampleCampaignSignup] noStates).map MergedNotification.id :=
  (c3_signup_campaign_materializes_iff ⟨10, 0⟩
      ⟨some AppRole.bride, some ⟨0, 0⟩⟩ ⟨0, 0⟩ none [sampleAll1]
      [sampleCampaignSignup] noStates sampleCampaignSignup (by decide)
      (by decide) (by decide) (by decide) (by decide) (by decide)
      (by decide)).mpr (by decide)

/-- C6: a couples-targeted broadcast reaches the feed only for the bride,
groom or super_admin role, while an all-targeted broadcast (not deleted)
reaches every role. -/
theorem c6_couples_targeting (now : Timestamp) (up : Option AppUser)
    (wd : Option WeddingData) (gs : List Notification)
    (cs : List NotificationCampaign) (states : UserStates)
    (b : Notification) (hb : b ∈ gs)
    (hnodup : (gs.map Notification.id).Nodup)
    (hcs : b.id ∉ cs.map NotificationCampaign.id) :
    (b.target = NotificationTarget.couples →
      up.bind AppUser.role ≠ some AppRole.bride →
      up.bind AppUser.role ≠ some AppRole.groom →
      up.bind AppUser.role ≠ some AppRole.super_admin →
      b.id ∉ (mergedNotifications now up wd gs cs states).map
        MergedNotification.id) ∧
    (stateDeleted states b.id = false →
      (b.target = NotificationTarget.all ∨
        (b.target = NotificationTarget.couples ∧
          (up.bind AppUser.role = some AppRole.bride ∨
           up.bind AppUser.role = some AppRole.groom ∨
           up.bind AppUser.role = some AppRole.super_admin))) →
      b.id ∈ (mergedNotifications now up wd gs cs states).map
        MergedNotification.id) := by
  constructor
  · intro ht hr1 hr2 hr3 hmem
    obtain ⟨m, hmfeed, hmid⟩ := List.mem_map.mp hmem
    rcases (mem_mergedNotifications_iff now up wd gs cs states m).mp
        hmfeed with hman | hcamp
    · obtain ⟨n, hn, hvis, rfl⟩ := manualNotifications_spec hman
      have hnb : n = b := List.inj_on_of_nodup_map hnodup hn hb hmid
      subst hnb
      rcases hrole : up.bind AppUser.role with _ | r
      · simp [broadcastVisible, ht, hrole] at hvis
      · cases r with
        | bride => exact hr1 hrole
        | groom => exact hr2 hrole
        | super_admin => exact hr3 hrole
        | collaborator => simp [broadcastVisible, ht, hrole] at hvis
        | guest => simp [broadcastVisible, ht, hrole] at hvis
    · obtain ⟨p', hup, hpc, c, hc, hact, hdel, td, htd, hpast, rfl⟩ :=
        campaignNotifications_spec hcamp
      exact absurd (List.mem_map.mpr ⟨c, hc, hmid⟩) hcs
  · intro hdel hcase
    have hvis : broadcastVisible up states b = true := by
      rcases hcase with hall | ⟨hcouples, hrole⟩
      · simp [broadcastVisible, hall, hdel]
      · rcases hrole with h | h | h <;>
          simp [broadcastVisible, hcouples, hdel, h]
    exact List.mem_map.mpr
      ⟨mkManualItem states b,
        (mem_mergedNotifications_iff now up wd gs cs states _).mpr
          (Or.inl (manualNotifications_mem hb hvis)), rfl⟩

/-- Witness for C6: the sample couples broadcast is visible to a bride and
hidden from a guest. -/
theorem c6_witness :
    "n3" ∈ (mergedNotifications ⟨0, 0⟩ (some ⟨some AppRole.bride, none⟩)
        none [sampleCouples] [] noStates).map MergedNotification.id ∧
    "n3" ∉ (mergedNotifications ⟨0, 0⟩ (some ⟨some AppRole.guest, none⟩)
        none [sampleCouples] [] noStates).map MergedNotification.id := by
  constructor
  · exact (c6_couples_targeting ⟨0, 0⟩ (some ⟨some AppRole.bride, none⟩)
      none [sampleCouples] [] noStates sampleCouples (by decide) (by decide)
      (by decide)).2 (by decide)
      (Or.inr ⟨by decide, Or.inl (by decide)⟩)
  · exact (c6_couples_targeting ⟨0, 0⟩ (some ⟨some AppRole.guest, none⟩)
      none [sampleCouples] [] noStates sampleCouples (by decide) (by decide)
      (by decide)).1 (by decide) (by decide) (by decide) (by decide)

/-- C7: when the backing write of a markRead or delete mutation fails, the
handlers catch the rejection, log to the developer console only, and
return normally: no toast is shown and nothing is rethrown, so the failure
is not surfaced to the caller or user. -/
theorem c7_mutation_failure_swallowed :
    handleDeleteOutcome true WriteResult.failed =
      { stateUpdated := false, toastShown := false, consoleLogged := true,
        rethrown := false } ∧
    handleMarkAsReadOutcome true false WriteResult.failed =
      { stateUpdated := false, toastShown := false, consoleLogged := true,
        rethrown := false } := by
  decide

/-- C8 counterexample: an accepted landscape input of 1920 by 1500 passes
the resize untouched, so its height exceeds the claimed 1080 bound. -/
theorem c8_counterexample :
    handleFileSelect 1000 ⟨1920, 1500⟩ = some ⟨1920, 1500⟩ ∧
    (1080 : ℚ) < 1500 := by
  constructor
  · rw [handleFileSelect, if_neg (by norm_num)]
    rw [resizeDims]
    norm_num [MAX_WIDTH]
  · norm_num

/-- C8 amended: the resize preserves aspect ratio and only shrinks; a
strictly landscape input gets its width capped at 1920 (its height is not
independently capped and may exceed 1080), any other input gets both
dimensions capped at 1080; a 2000 by 1000 input becomes 1920 by 960, and
a 6 MiB file is rejected before any resize attempt. -/
theorem c8_resize_shrink_ratio (d : Dims) (hw : 0 < d.width)
    (hh : 0 < d.height) :
    (resizeDims d).width * d.height = (resizeDims d).height * d.width ∧
    (resizeDims d).width ≤ d.width ∧
    (resizeDims d).height ≤ d.height ∧
    (d.height < d.width → (resizeDims d).width ≤ 1920) ∧
    (¬ d.height < d.width →
      (resizeDims d).height ≤ 1080 ∧ (resizeDims d).width ≤ 1080) ∧
    handleFileSelect (6 * 1024 * 1024) d = none ∧
    resizeDims ⟨2000, 1000⟩ = ⟨1920, 960⟩ := by
  have hfile : handleFileSelect (6 * 1024 * 1024) d = none := by
    rw [handleFileSelect, if_pos (by norm_num)]
  have hcalc : resizeDims ⟨2000, 1000⟩ = ⟨1920, 960⟩ := by
    rw [resizeDims]
    norm_num [MAX_WIDTH, MAX_HEIGHT]
  by_cases h1 : d.height < d.width
  · by_cases h2 : MAX_WIDTH < d.width
    · have hrd : resizeDims d =
          { width := MAX_WIDTH, height := d.height * (MAX_WIDTH / d.width) } := by
        rw [resizeDims, if_pos h1, if_pos h2]
      have hwid : MAX_WIDTH ≤ d.width := le_of_lt h2
      have hfrac : MAX_WIDTH / d.width ≤ 1 :=
        (div_le_one hw).mpr hwid
      refine ⟨?_, ?_, ?_, fun _ => ?_, fun hc => absurd h1 hc, hfile, hcalc⟩
      · rw [hrd]
        field_simp
        ring
      · rw [hrd]; exact hwid
      · rw [hrd]
        exact mul_le_of_le_one_right (le_of_lt hh) hfrac
      · rw [hrd]
        norm_num [MAX_WIDTH]
    · have hrd : resizeDims d = d := by
        rw [resizeDims, if_pos h1, if_neg h2]
      have hwle : d.width ≤ 1920 := by
        simpa [MAX_WIDTH] using le_of_not_lt h2
      exact ⟨by rw [hrd]; ring, by rw [hrd], by rw [hrd],
        fun _ => by rw [hrd]; exact hwle, fun hc => absurd h1 hc, hfile,
        hcalc⟩
  · by_cases h3 : MAX_HEIGHT < d.height
    · have hrd : resizeDims d =
          { width := d.width * (MAX_HEIGHT / d.height),
            height := MAX_HEIGHT } := by
        rw [resizeDims, if_neg (by simpa using h1), if_pos h3]
      have hhge : MAX_HEIGHT ≤ d.height := le_of_lt h3
      have hfrac : MAX_HEIGHT / d.height ≤ 1 :=
        (div_le_one hh).mpr hhge
      have hwh : d.width ≤ d.height := le_of_not_lt h1
      have hwcap : d.width * (MAX_HEIGHT / d.height) ≤ 1080 := by
        have hmono : d.width * (MAX_HEIGHT / d.height) ≤
            d.height * (MAX_HEIGHT / d.height) :=
          mul_le_mul_of_nonneg_right hwh
            (div_nonneg (by norm_num [MAX_HEIGHT]) (le_of_lt hh))
        have hcancel : d.height * (MAX_HEIGHT / d.height) = MAX_HEIGHT := by
          field_simp
        rw [hcancel] at hmono
        simpa [MAX_HEIGHT] using hmono
      refine ⟨?_, ?_, ?_, fun hc => absurd hc h1, fun _ => ?_, hfile, hcalc⟩
      · rw [hrd]
        field_simp
        ring
      · rw [hrd]
        exact mul_le_of_le_one_right (le_of_lt hw) hfrac
      · rw [hrd]; exact hhge
      · rw [hrd]
        exact ⟨by norm_num [MAX_HEIGHT], hwcap⟩
    · have hrd : resizeDims d = d := by
        rw [resizeDims, if_neg (by simpa using h1), if_neg h3]
      have hhle : d.height ≤ 1080 := by
        simpa [MAX_HEIGHT] using le_of_not_lt h3
      refine ⟨by rw [hrd]; ring, by rw [hrd], by rw [hrd],
        fun hc => absurd hc h1, fun _ => ?_, hfile, hcalc⟩
      rw [hrd]
      exact ⟨hhle, le_trans (le_of_not_lt h1) hhle⟩

/-- Witness for C8: the amended theorem evaluated at the 2000 by 1000
sample input. -/
theorem c8_witness :
    (0 : ℚ) < 2000 ∧ (0 : ℚ) < 1000 ∧
    resizeDims ⟨2000, 1000⟩ = ⟨1920, 960⟩ :=
  ⟨by norm_num, by norm_num,
    (c8_resize_shrink_ratio ⟨2000, 1000⟩ (by norm_num)
      (by norm_num)).2.2.2.2.2.2⟩

/-- A two-page external search collaborator whose pages differ. -/
def pagedApiSample : UnsplashApi :=
  fun _ page =>
    if page = 1 then [⟨"img1", "u1"⟩] else [⟨"img2", "u2"⟩]

/-- C9: a new search followed by a load-more request (which computes and
passes page 2) appends the first page again, because the server action
accepts no page argument and its endpoint carries no page parameter; the
collaborator's actual second page is different and never reached. -/
theorem c9_load_more_repeats_first_page :
    handleSearch pagedApiSample (some "key") "flores" false
        (handleSearch pagedApiSample (some "key") "flores" true ⟨[], 1⟩) =
      ⟨[⟨"img1", "u1"⟩, ⟨"img1", "u1"⟩], 2⟩ ∧
    pagedApiSample "flores" 2 = [⟨"img2", "u2"⟩] ∧
    searchUnsplashImages pagedApiSample (some "key") "flores" =
      { success := true, images := [⟨"img1", "u1"⟩], error := none } := by
  decide
